import Mathlib

/-!
Verification of the DDALAB-launcher self-update subsystem (pkg/updater).

The Go source is shallowly embedded: byte streams become `List Nat`,
the filesystem becomes an association list from paths to contents,
fallible syscalls are driven by explicit failure flags, and archive
readers are modelled as lists of already-decoded entries (the claims
under study are about entry selection and sizes, not about the gzip or
zip wire formats, whose decoders are kept abstract parameters).
-/

namespace Launcher

/-! ### String helpers mirroring the Go standard library -/

/-- p is an initial segment of the second list. -/
def listLeads : List Char → List Char → Bool
  | [], _ => true
  | _ :: _, [] => false
  | a :: as, b :: bs => a == b && listLeads as bs

/-- needle occurs contiguously inside the second list. -/
def listInside (needle : List Char) : List Char → Bool
  | [] => listLeads needle []
  | b :: bs => listLeads needle (b :: bs) || listInside needle bs

/-- Go strings.Contains: sub occurs inside s. -/
def strContains (s sub : String) : Bool := listInside sub.data s.data

/-- Go strings.HasSuffix. -/
def strEndsWith (s suf : String) : Bool := listLeads suf.data.reverse s.data.reverse

/-- Go strings.HasPrefix. -/
def strStartsWith (s p : String) : Bool := listLeads p.data s.data

/-- Go strings.TrimPrefix(s, "v"): drop a single leading marker character. -/
def goTrimV (s : String) : String :=
  if strStartsWith s "v" then ⟨s.data.drop 1⟩ else s

/-- Go path/filepath.Base: last path element after stripping trailing
separators; "." for the empty path, "/" for an all-separator path. -/
def goBase (s : String) : String :=
  if s.data.isEmpty then "."
  else
    let stripped := (s.data.reverse.dropWhile (fun c => c == '/')).reverse
    if stripped.isEmpty then "/"
    else ⟨(stripped.reverse.takeWhile (fun c => c != '/')).reverse⟩

/-! ### Versions (parseVersion, blang/semver comparison) -/

/-- The parsed (major, minor, patch) triple of github.com/blang/semver,
restricted to the bare version core: the claims only involve plain
`major.minor.patch` strings, whose pre-release and build lists are empty. -/
structure SemVer where
  major : Nat
  minor : Nat
  patch : Nat
deriving DecidableEq, Repr

/-- Digit-string to number, most significant first. -/
def digitsToNat (cs : List Char) : Nat :=
  cs.foldl (fun acc c => 10 * acc + (c.toNat - 48)) 0

/-- A semver numeric identifier: nonempty, all digits, no leading zeroes. -/
def isNumericPart : List Char → Bool
  | [] => false
  | [c] => c.isDigit
  | c :: rest => c.isDigit && c != '0' && rest.all Char.isDigit

/-- Split a character list on the dot separator. -/
def splitDots : List Char → List (List Char)
  | [] => [[]]
  | c :: rest =>
    if c == '.' then [] :: splitDots rest
    else
      match splitDots rest with
      | [] => [[c]]
      | g :: gs => (c :: g) :: gs

/-- blang/semver Parse, restricted to bare numeric `major.minor.patch`
version cores (no pre-release or build metadata): exactly three
dot-separated numeric identifiers without leading zeroes. -/
def semverParse (s : String) : Except String SemVer :=
  match splitDots s.data with
  | [a, b, c] =>
    if isNumericPart a && isNumericPart b && isNumericPart c then
      .ok ⟨digitsToNat a, digitsToNat b, digitsToNat c⟩
    else .error "invalid character(s) found in number"
  | _ => .error "no Major.Minor.Patch elements found"

/-- pkg/updater parseVersion: strip the "v" marker, map the "dev"
sentinel to (0,0,0), otherwise defer to semver parsing. -/
def parseVersion (version : String) : Except String SemVer :=
  let cleanVersion := goTrimV version
  if cleanVersion = "dev" then .ok ⟨0, 0, 0⟩
  else semverParse cleanVersion

/-- blang/semver Version.Compare on bare version cores: majors, then
minors, then patches. -/
def semverCompare (v o : SemVer) : Int :=
  if v.major ≠ o.major then (if o.major < v.major then 1 else -1)
  else if v.minor ≠ o.minor then (if o.minor < v.minor then 1 else -1)
  else if v.patch ≠ o.patch then (if o.patch < v.patch then 1 else -1)
  else 0

/-- blang/semver Version.GT. -/
def semverGT (v o : SemVer) : Bool := decide (0 < semverCompare v o)

/-- Spec-side ordering: strict lexicographic comparison of the numeric
(major, minor, patch) triples. -/
def lexLt (v w : SemVer) : Prop :=
  v.major < w.major ∨
    (v.major = w.major ∧
      (v.minor < w.minor ∨ (v.minor = w.minor ∧ v.patch < w.patch)))

instance (v w : SemVer) : Decidable (lexLt v w) := by
  unfold lexLt; infer_instance

/-- The update decision of CheckForUpdates: parse both versions, then
HasUpdate := latestVer.GT(currentVer). -/
def checkHasUpdate (currentVersion tagName : String) : Except String Bool :=
  match parseVersion currentVersion with
  | .error e => .error e
  | .ok currentVer =>
    match parseVersion tagName with
    | .error e => .error e
    | .ok latestVer => .ok (semverGT latestVer currentVer)

/-! ### Platform asset selection (findPlatformBinary) -/

/-- One GitHub release asset: name, browser download URL, size. -/
structure Asset where
  name : String
  browserDownloadURL : String
  size : Int
deriving DecidableEq, Repr

/-- The OS-family token table of findPlatformBinary. -/
def platformMapLookup (os : String) : Option (List String) :=
  if os = "darwin" then some ["darwin-amd64", "darwin-arm64"]
  else if os = "linux" then some ["linux-amd64", "linux-arm64"]
  else if os = "windows" then some ["windows-amd64", "windows-arm64"]
  else none

/-- The architecture normalisation table of findPlatformBinary. -/
def archMapLookup (arch : String) : Option String :=
  if arch = "amd64" then some "amd64"
  else if arch = "arm64" then some "arm64"
  else if arch = "386" then some "386"
  else none

/-- The per-asset body of both loops of findPlatformBinary: the asset is
taken when its name contains the token and carries the OS-correct
archive suffix (.zip on Windows, .tar.gz elsewhere). -/
def tryAsset (os token : String) (a : Asset) : Option (String × Int) :=
  if strContains a.name token then
    if os = "windows" then
      if strEndsWith a.name ".zip" then some (a.browserDownloadURL, a.size) else none
    else
      if strEndsWith a.name ".tar.gz" then some (a.browserDownloadURL, a.size) else none
  else none

/-- pkg/updater findPlatformBinary: exact os-arch token first, then any
OS-family token, both constrained to the OS-correct archive suffix;
("", 0) when nothing matches or the OS is unknown. -/
def findPlatformBinary (os arch : String) (assets : List Asset) : String × Int :=
  match platformMapLookup os with
  | none => ("", 0)
  | some platformStrings =>
    let archString := (archMapLookup arch).getD "amd64"
    let expectedName := os ++ "-" ++ archString
    match assets.findSome? (tryAsset os expectedName) with
    | some r => r
    | none =>
      match platformStrings.findSome? (fun ps => assets.findSome? (tryAsset os ps)) with
      | some r => r
      | none => ("", 0)

/-! ### Archive extraction (extractBinaryFromArchive and branches) -/

/-- One already-decoded archive entry (tar header or zip file record):
full path inside the archive, directory flag, content bytes. -/
structure ArchiveEntry where
  name : String
  isDir : Bool
  content : List Nat
deriving DecidableEq, Repr

/-- The errors of the extraction subsystem. -/
inductive ExtractionError where
  | archiveUnreadable (msg : String)
  | noBinaryFound (platform : String) (patterns : List String)
  | binaryTooSmall (name : String) (size : Nat)
deriving DecidableEq, Repr

/-- The expected base-name patterns of extractFromTarGz, with the .exe
variants appended on Windows. -/
def tarPatterns (os arch : String) : List String :=
  let base := ["ddalab-launcher-" ++ os ++ "-" ++ arch,
               "launcher-" ++ os ++ "-" ++ arch,
               os ++ "-" ++ arch]
  if os = "windows" then base ++ base.map (fun p => p ++ ".exe") else base

/-- The per-entry match test of extractFromTarGz: a pattern equals or
occurs in the base name, or the base name is a generic launcher name
and the full path carries the os-arch token. -/
def tarMatches (os arch fullName : String) : Bool :=
  let fileName := goBase fullName
  (tarPatterns os arch).any (fun p => fileName == p || strContains fileName p) ||
  ((fileName == "ddalab-launcher" || fileName == "launcher" ||
      (os = "windows" && (fileName == "ddalab-launcher.exe" || fileName == "launcher.exe"))) &&
    strContains fullName (os ++ "-" ++ arch))

/-- The scanning loop of extractFromTarGz: entries in archive order,
directories skipped, stop at the first matching regular file, returning
its base name and full content. -/
def tarScan (os arch : String) : List ArchiveEntry → Option (String × List Nat)
  | [] => none
  | e :: rest =>
    if e.isDir then tarScan os arch rest
    else if tarMatches os arch e.name then some (goBase e.name, e.content)
    else tarScan os arch rest

/-- pkg/updater extractFromTarGz after gzip/tar decoding: scan for the
platform binary, then reject empty (nothing found) and sub-1024-byte
(placeholder) payloads. -/
def extractFromTarGz (os arch : String) (entries : List ArchiveEntry) :
    Except ExtractionError (List Nat) :=
  match tarScan os arch entries with
  | none => .error (.noBinaryFound (os ++ "-" ++ arch) (tarPatterns os arch))
  | some (n, data) =>
    if data.length = 0 then .error (.noBinaryFound (os ++ "-" ++ arch) (tarPatterns os arch))
    else if data.length < 1024 then .error (.binaryTooSmall n data.length)
    else .ok data

/-- The expected base-name patterns of extractFromZip. -/
def zipPatterns (os arch : String) : List String :=
  ["ddalab-launcher-" ++ os ++ "-" ++ arch ++ ".exe",
   "launcher-" ++ os ++ "-" ++ arch ++ ".exe",
   os ++ "-" ++ arch ++ ".exe",
   "ddalab-launcher.exe",
   "launcher.exe"]

/-- The per-entry match test of extractFromZip. -/
def zipMatches (os arch fullName : String) : Bool :=
  let fileName := goBase fullName
  (zipPatterns os arch).any (fun p => fileName == p || strContains fileName p) ||
  ((fileName == "ddalab-launcher.exe" || fileName == "launcher.exe") &&
    strContains fullName (os ++ "-" ++ arch))

/-- The scanning loop of extractFromZip. -/
def zipScan (os arch : String) : List ArchiveEntry → Option (String × List Nat)
  | [] => none
  | e :: rest =>
    if e.isDir then zipScan os arch rest
    else if zipMatches os arch e.name then some (goBase e.name, e.content)
    else zipScan os arch rest

/-- pkg/updater extractFromZip after zip decoding. -/
def extractFromZip (os arch : String) (entries : List ArchiveEntry) :
    Except ExtractionError (List Nat) :=
  match zipScan os arch entries with
  | none => .error (.noBinaryFound (os ++ "-" ++ arch) (zipPatterns os arch))
  | some (n, data) =>
    if data.length = 0 then .error (.noBinaryFound (os ++ "-" ++ arch) (zipPatterns os arch))
    else if data.length < 1024 then .error (.binaryTooSmall n data.length)
    else .ok data

/-- pkg/updater extractBinaryFromArchive: dispatch on the URL suffix;
tarDecode and zipDecode stand for the gzip+tar and zip wire decoders,
whose failures surface as unreadable-archive errors; any other URL
passes the stream through unchanged. -/
def extractBinaryFromArchive
    (tarDecode zipDecode : List Nat → Except String (List ArchiveEntry))
    (os arch : String) (stream : List Nat) (archiveURL : String) :
    Except ExtractionError (List Nat) :=
  if strEndsWith archiveURL ".tar.gz" then
    match tarDecode stream with
    | .error e => .error (.archiveUnreadable e)
    | .ok entries => extractFromTarGz os arch entries
  else if strEndsWith archiveURL ".zip" then
    match zipDecode stream with
    | .error e => .error (.archiveUnreadable e)
    | .ok entries => extractFromZip os arch entries
  else .ok stream

/-! ### Filesystem model and install strategies -/

/-- Association-list lookup of a path. -/
def fsFind : List (String × List Nat) → String → Option (List Nat)
  | [], _ => none
  | kv :: rest, p => if kv.1 == p then some kv.2 else fsFind rest p

/-- The filesystem: a finite map from paths to file contents. -/
structure FS where
  files : List (String × List Nat)
deriving DecidableEq, Repr

def FS.get (fs : FS) (p : String) : Option (List Nat) := fsFind fs.files p

def FS.erase (fs : FS) (p : String) : FS :=
  ⟨fs.files.filter (fun kv => !(kv.1 == p))⟩

def FS.set (fs : FS) (p : String) (d : List Nat) : FS :=
  ⟨(p, d) :: (fs.erase p).files⟩

/-- Which fallible syscalls of performUnixUpdate fail in a run.
Removals have their errors discarded by the source, so a failing
removal only leaves the file behind. -/
structure UnixEnv where
  createTempFails : Bool
  applyFails : Bool
  chmodFails : Bool
  backupRenameFails : Bool
  finalRenameFails : Bool
  rollbackRenameFails : Bool
  removeTempFails : Bool
  removeBackupFails : Bool
deriving DecidableEq, Repr

/-- Which fallible syscalls of performWindowsUpdate fail in a run. -/
structure WinEnv where
  applyFails : Bool
  writeBatchFails : Bool
  startFails : Bool
  removeNewFails : Bool
  removeBatchFails : Bool
deriving DecidableEq, Repr

/-- The errors of PerformUpdate and the two install strategies. -/
inductive UpdateError where
  | noDownloadURL
  | execPathFailed
  | resolveFailed
  | downloadFailed
  | badStatus (code : Nat)
  | extraction (e : ExtractionError)
  | createTempFailed
  | applyFailed
  | chmodFailed
  | backupRenameFailed
  | finalRenameFailed
  | writeBatchFailed
  | startScriptFailed
deriving DecidableEq, Repr

/-- The deferred `os.Remove(tempPath)` of performUnixUpdate, error
discarded. -/
def removeTemp (env : UnixEnv) (tempPath : String) (fs : FS) : FS :=
  if env.removeTempFails then fs else fs.erase tempPath

/-- The best-effort rollback `os.Rename(backupPath, currentExe)` of
performUnixUpdate, error discarded. -/
def rollbackBackup (env : UnixEnv) (backupPath currentExe : String) (fs : FS) : FS :=
  if env.rollbackRenameFails then fs
  else
    match fs.get backupPath with
    | none => fs
    | some b => (fs.erase backupPath).set currentExe b

/-- pkg/updater performUnixUpdate: create a temp file beside the
executable, write the payload into it, chmod it, rename the executable
to a .backup, rename the temp file onto the executable; on the final
rename failing, attempt the rollback and surface the rename error; on
success remove the backup; the temp file is removed on every exit. -/
def performUnixUpdate (env : UnixEnv) (currentExe tempPath : String)
    (updateBody : List Nat) (fs : FS) : Except UpdateError Unit × FS :=
  if env.createTempFails then (.error .createTempFailed, fs)
  else
    let fs1 := fs.set tempPath []
    if env.applyFails then (.error .applyFailed, removeTemp env tempPath fs1)
    else
      let fs2 := fs1.set tempPath updateBody
      if env.chmodFails then (.error .chmodFailed, removeTemp env tempPath fs2)
      else
        let backupPath := currentExe ++ ".backup"
        match fs2.get currentExe, env.backupRenameFails with
        | none, _ => (.error .backupRenameFailed, removeTemp env tempPath fs2)
        | some _, true => (.error .backupRenameFailed, removeTemp env tempPath fs2)
        | some origData, false =>
          let fs3 := (fs2.erase currentExe).set backupPath origData
          let renamed : Option FS :=
            if env.finalRenameFails then none
            else
              match fs3.get tempPath with
              | none => none
              | some t => some ((fs3.erase tempPath).set currentExe t)
          match renamed with
          | none =>
            (.error .finalRenameFailed,
              removeTemp env tempPath (rollbackBackup env backupPath currentExe fs3))
          | some fs4 =>
            let fs5 := if env.removeBackupFails then fs4 else fs4.erase backupPath
            (.ok (), removeTemp env tempPath fs5)

/-- The batch script performWindowsUpdate writes: wait, move the
executable aside, move the .new file into place, delete the aside copy,
delete the script itself. -/
def batchScript (currentExe newPath : String) : String :=
  "@echo off\ntimeout /t 2 /nobreak >nul\nmove \"" ++ currentExe ++ "\" \"" ++
    currentExe ++ ".old\"\nmove \"" ++ newPath ++ "\" \"" ++ currentExe ++
    "\"\ndel \"" ++ currentExe ++ ".old\"\ndel \"%~f0\"\n"

/-- File contents of a script, byte per character. -/
def strBytes (s : String) : List Nat := s.data.map Char.toNat

/-- The deferred removals of performWindowsUpdate, errors discarded;
the source defers them unconditionally, so they run on every exit
path, the successful one included. -/
def winCleanup (env : WinEnv) (newPath batchPath : String) (fs : FS) : FS :=
  let fs1 := if env.removeNewFails then fs else fs.erase newPath
  if env.removeBatchFails then fs1 else fs1.erase batchPath

/-- pkg/updater performWindowsUpdate: write the payload to a sibling
.new file, write the replacement batch script, launch it detached; the
deferred removals of both files run on every exit. -/
def performWindowsUpdate (env : WinEnv) (currentExe : String)
    (updateBody : List Nat) (fs : FS) : Except UpdateError Unit × FS :=
  let newPath := currentExe ++ ".new"
  let batchPath := currentExe ++ ".update.bat"
  if env.applyFails then (.error .applyFailed, winCleanup env newPath batchPath fs)
  else
    let fs1 := fs.set newPath updateBody
    if env.writeBatchFails then
      (.error .writeBatchFailed, winCleanup env newPath batchPath fs1)
    else
      let fs2 := fs1.set batchPath (strBytes (batchScript currentExe newPath))
      if env.startFails then
        (.error .startScriptFailed, winCleanup env newPath batchPath fs2)
      else (.ok (), winCleanup env newPath batchPath fs2)

/-! ### PerformUpdate -/

/-- The observable side effects of one PerformUpdate run, in order. -/
inductive Effect where
  | queryExecutable
  | resolveSymlinks (p : String)
  | httpRequest (url : String)
  | runInstallStrategy (os : String)
deriving DecidableEq, Repr

/-- The ambient world of one PerformUpdate run: platform identifiers,
outcomes of the executable-path queries, the HTTP answer, the archive
decoders, the strategy failure flags and the filesystem. -/
structure UpdEnv where
  goos : String
  goarch : String
  execPath : Option String
  resolvedPath : Option String
  httpStatus : Option Nat
  body : List Nat
  tarDecode : List Nat → Except String (List ArchiveEntry)
  zipDecode : List Nat → Except String (List ArchiveEntry)
  winEnv : WinEnv
  unixEnv : UnixEnv
  tempPath : String
  fs : FS

/-- The outcome of one PerformUpdate run: result, effect trace, final
filesystem. -/
structure UpdOutcome where
  result : Except UpdateError Unit
  trace : List Effect
  fs : FS
deriving Repr

/-- pkg/updater PerformUpdate: reject an empty download URL, resolve
the current executable, download, extract, then dispatch to the
platform install strategy. -/
def PerformUpdate (env : UpdEnv) (downloadURL : String) : UpdOutcome :=
  if downloadURL = "" then ⟨.error .noDownloadURL, [], env.fs⟩
  else
    match env.execPath with
    | none => ⟨.error .execPathFailed, [.queryExecutable], env.fs⟩
    | some exe0 =>
      match env.resolvedPath with
      | none => ⟨.error .resolveFailed, [.queryExecutable, .resolveSymlinks exe0], env.fs⟩
      | some currentExe =>
        let tr := [Effect.queryExecutable, .resolveSymlinks exe0, .httpRequest downloadURL]
        match env.httpStatus with
        | none => ⟨.error .downloadFailed, tr, env.fs⟩
        | some status =>
          if status ≠ 200 then ⟨.error (.badStatus status), tr, env.fs⟩
          else
            match extractBinaryFromArchive env.tarDecode env.zipDecode
                env.goos env.goarch env.body downloadURL with
            | .error e => ⟨.error (.extraction e), tr, env.fs⟩
            | .ok binary =>
              if env.goos = "windows" then
                let r := performWindowsUpdate env.winEnv currentExe binary env.fs
                ⟨r.1, tr ++ [.runInstallStrategy "windows"], r.2⟩
              else
                let r := performUnixUpdate env.unixEnv currentExe env.tempPath binary env.fs
                ⟨r.1, tr ++ [.runInstallStrategy "unix"], r.2⟩

/-! ### Helper lemmas -/

theorem fsFind_filter_ne (l : List (String × List Nat)) (p q : String) (h : p ≠ q) :
    fsFind (l.filter (fun kv => !(kv.1 == p))) q = fsFind l q := by
  induction l with
  | nil => rfl
  | cons kv rest ih =>
    by_cases hk : kv.1 = p
    · have hq : (kv.1 == q) = false := by
        simp [hk]
        exact h
      simp [List.filter_cons, hk, fsFind, hq, ih, h]
    · simp only [List.filter_cons, show (kv.1 == p) = false by simp [hk], Bool.not_false,
        if_pos trivial]
      by_cases hq : kv.1 = q
      · simp [fsFind, hq]
      · simp [fsFind, hq, ih]

theorem fsFind_filter_self (l : List (String × List Nat)) (p : String) :
    fsFind (l.filter (fun kv => !(kv.1 == p))) p = none := by
  induction l with
  | nil => rfl
  | cons kv rest ih =>
    by_cases hk : kv.1 = p
    · simp [List.filter_cons, hk, ih]
    · simp [List.filter_cons, hk, fsFind, ih]

theorem FS.get_set (fs : FS) (p : String) (d : List Nat) (q : String) :
    (fs.set p d).get q = if p = q then some d else fs.get q := by
  by_cases h : p = q
  · simp [FS.set, FS.get, FS.erase, fsFind, h]
  · simp [FS.set, FS.get, FS.erase, fsFind, h, fsFind_filter_ne fs.files p q h]

theorem FS.get_erase (fs : FS) (p q : String) :
    (fs.erase p).get q = if p = q then none else fs.get q := by
  by_cases h : p = q
  · subst h
    simp [FS.erase, FS.get, fsFind_filter_self]
  · simp [FS.erase, FS.get, h, fsFind_filter_ne fs.files p q h]

theorem String.append_ne_self (s t : String) (h : t.data ≠ []) : s ++ t ≠ s := by
  intro he
  have hd : s.data ++ t.data = s.data := congrArg String.data he
  have := congrArg List.length hd
  simp [List.length_append] at this
  exact h (List.length_eq_zero.mp this)

theorem removeTemp_get_ne (env : UnixEnv) (tempPath q : String) (fs : FS)
    (h : tempPath ≠ q) : (removeTemp env tempPath fs).get q = fs.get q := by
  unfold removeTemp
  split
  · rfl
  · simp [FS.get_erase, h]

theorem winCleanup_get_ne (env : WinEnv) (newPath batchPath q : String) (fs : FS)
    (h1 : newPath ≠ q) (h2 : batchPath ≠ q) :
    (winCleanup env newPath batchPath fs).get q = fs.get q := by
  unfold winCleanup
  by_cases hn : env.removeNewFails <;> by_cases hb : env.removeBatchFails <;>
    simp [hn, hb, FS.get_erase, h1, h2]

theorem semverGT_iff_lexLt (v w : SemVer) : semverGT w v = true ↔ lexLt v w := by
  rcases v with ⟨a, b, c⟩
  rcases w with ⟨d, e, f⟩
  simp only [semverGT, semverCompare, lexLt, decide_eq_true_eq]
  split_ifs <;> omega

theorem goTrimV_vcons (s : String) : goTrimV ("v" ++ s) = s := by
  have hd : ("v" ++ s).data = 'v' :: s.data := rfl
  simp [goTrimV, strStartsWith, hd, listLeads]

theorem parseVersion_of_semverParse (s : String) (v : SemVer)
    (h : semverParse s = .ok v) (hv : strStartsWith s "v" = false) :
    parseVersion s = .ok v := by
  by_cases hs : s = "dev"
  · rw [hs] at h
    exact absurd h (by simp [semverParse, splitDots])
  · simp [parseVersion, goTrimV, hv, hs, h]

theorem parseVersion_vpre (s : String) (v : SemVer)
    (h : semverParse s = .ok v) : parseVersion ("v" ++ s) = .ok v := by
  by_cases hs : s = "dev"
  · rw [hs] at h
    exact absurd h (by simp [semverParse, splitDots])
  · simp [parseVersion, goTrimV_vcons, hs, h]

/-! ### Claim theorems -/

/-- The fabricated asset list of the spec acceptance check. -/
def fabricatedAssets : List Asset :=
  [⟨"app-windows-amd64.zip", "https://example/app-windows-amd64.zip", 111⟩,
   ⟨"app-linux-amd64.tar.gz", "https://example/app-linux-amd64.tar.gz", 222⟩,
   ⟨"app-darwin-arm64.tar.gz", "https://example/app-darwin-arm64.tar.gz", 333⟩]

/-- C4 counterexample: on the fabricated asset list with OS linux and
arch 386, findPlatformBinary does not return an empty URL and zero
size; the OS-family fallback loop returns the linux-amd64 tar.gz
asset's URL and size. -/
theorem C4_counterexample_linux_386 :
    findPlatformBinary "linux" "386" fabricatedAssets =
      ("https://example/app-linux-amd64.tar.gz", 222) ∧
    findPlatformBinary "linux" "386" fabricatedAssets ≠ ("", 0) := by
  constructor
  · rfl
  · decide

/-- C4 amended: on the fabricated asset list, Windows/amd64 selects the
.zip asset's URL and size, Linux/amd64 selects the .tar.gz asset's URL
and size, and Linux/386 selects the linux-amd64 .tar.gz asset's URL and
size through the OS-family fallback (not an empty URL and zero size). -/
theorem C4_findPlatformBinary_on_fabricated_assets :
    findPlatformBinary "windows" "amd64" fabricatedAssets =
      ("https://example/app-windows-amd64.zip", 111) ∧
    findPlatformBinary "linux" "amd64" fabricatedAssets =
      ("https://example/app-linux-amd64.tar.gz", 222) ∧
    findPlatformBinary "linux" "386" fabricatedAssets =
      ("https://example/app-linux-amd64.tar.gz", 222) :=
  ⟨rfl, rfl, rfl⟩

/-- C5: for valid major.minor.patch strings, with or without the v
marker, parsing succeeds with the numeric triple; the update decision
of CheckForUpdates is semver strict-greater, which coincides with
lexicographic comparison of the (major, minor, patch) triples, and
equal versions never report an update. -/
theorem C5_version_order_matches_triple_order
    (s t : String) (v w : SemVer)
    (hs : semverParse s = .ok v) (ht : semverParse t = .ok w)
    (hsv : strStartsWith s "v" = false) (htv : strStartsWith t "v" = false) :
    parseVersion s = .ok v ∧ parseVersion ("v" ++ s) = .ok v ∧
    parseVersion t = .ok w ∧ parseVersion ("v" ++ t) = .ok w ∧
    checkHasUpdate s t = .ok (semverGT w v) ∧
    checkHasUpdate ("v" ++ s) ("v" ++ t) = .ok (semverGT w v) ∧
    (semverGT w v = true ↔ lexLt v w) ∧
    (v = w → semverGT w v = false) := by
  have hps := parseVersion_of_semverParse s v hs hsv
  have hpt := parseVersion_of_semverParse t w ht htv
  have hpvs := parseVersion_vpre s v hs
  have hpvt := parseVersion_vpre t w ht
  refine ⟨hps, hpvs, hpt, hpvt, ?_, ?_, semverGT_iff_lexLt v w, ?_⟩
  · simp [checkHasUpdate, hps, hpt]
  · simp [checkHasUpdate, hpvs, hpvt]
  · intro he
    subst he
    simp [semverGT, semverCompare]

/-- C5 witness: instantiation at 1.2.3 and 1.2.4. -/
theorem C5_witness :
    parseVersion "1.2.3" = .ok ⟨1, 2, 3⟩ ∧
    parseVersion ("v" ++ "1.2.3") = .ok ⟨1, 2, 3⟩ ∧
    parseVersion "1.2.4" = .ok ⟨1, 2, 4⟩ ∧
    parseVersion ("v" ++ "1.2.4") = .ok ⟨1, 2, 4⟩ ∧
    checkHasUpdate "1.2.3" "1.2.4" = .ok (semverGT ⟨1, 2, 4⟩ ⟨1, 2, 3⟩) ∧
    checkHasUpdate ("v" ++ "1.2.3") ("v" ++ "1.2.4") = .ok (semverGT ⟨1, 2, 4⟩ ⟨1, 2, 3⟩) ∧
    (semverGT ⟨1, 2, 4⟩ ⟨1, 2, 3⟩ = true ↔ lexLt ⟨1, 2, 3⟩ ⟨1, 2, 4⟩) ∧
    ((⟨1, 2, 3⟩ : SemVer) = ⟨1, 2, 4⟩ → semverGT ⟨1, 2, 4⟩ ⟨1, 2, 3⟩ = false) :=
  C5_version_order_matches_triple_order "1.2.3" "1.2.4" ⟨1, 2, 3⟩ ⟨1, 2, 4⟩
    rfl rfl rfl rfl

/-- C6 counterexample: "0.0.0" is a parseable released-version string
whose parse equals the dev sentinel's (0,0,0), so the sentinel is not
strictly less than the parse of every parseable version string. -/
theorem C6_counterexample_zero_version :
    parseVersion "0.0.0" = .ok ⟨0, 0, 0⟩ ∧
    parseVersion "dev" = .ok ⟨0, 0, 0⟩ ∧
    ¬ lexLt (⟨0, 0, 0⟩ : SemVer) ⟨0, 0, 0⟩ :=
  ⟨rfl, rfl, by decide⟩

/-- C6 amended: "dev", optionally v-prefixed, parses to (0,0,0) without
error, and that sentinel is strictly less than every parseable version
other than (0,0,0) itself, including "0.0.1". -/
theorem C6_dev_sentinel_below_released_versions :
    parseVersion "dev" = .ok ⟨0, 0, 0⟩ ∧
    parseVersion "vdev" = .ok ⟨0, 0, 0⟩ ∧
    (∀ s v, parseVersion s = .ok v → v ≠ ⟨0, 0, 0⟩ → lexLt ⟨0, 0, 0⟩ v) ∧
    parseVersion "0.0.1" = .ok ⟨0, 0, 1⟩ ∧
    lexLt ⟨0, 0, 0⟩ ⟨0, 0, 1⟩ := by
  refine ⟨rfl, rfl, ?_, rfl, by decide⟩
  intro s v _ hne
  rcases v with ⟨a, b, c⟩
  simp only [ne_eq, SemVer.mk.injEq, not_and] at hne
  simp only [lexLt]
  omega

/-- C6 witness: instantiation of the universal part at "0.0.1". -/
theorem C6_witness : lexLt ⟨0, 0, 0⟩ ⟨0, 0, 1⟩ :=
  C6_dev_sentinel_below_released_versions.2.2.1 "0.0.1" ⟨0, 0, 1⟩ rfl (by decide)

/-- A WinEnv in which every syscall succeeds. -/
def winEnvAllOk : WinEnv := ⟨false, false, false, false, false⟩

/-- C7: the source defers removal of the .new file and the batch script
unconditionally, so a fully successful run — one that launched the
detached script — still returns success with both files already
removed, although the script it launched needs them; the run below has
every I/O step succeed. -/
theorem C7_success_still_removes_handoff_files :
    (performWindowsUpdate winEnvAllOk "C:/launcher.exe" [7, 7]
        ⟨[("C:/launcher.exe", [1, 2, 3])]⟩).1 = .ok () ∧
    (performWindowsUpdate winEnvAllOk "C:/launcher.exe" [7, 7]
        ⟨[("C:/launcher.exe", [1, 2, 3])]⟩).2.get "C:/launcher.exe.new" = none ∧
    (performWindowsUpdate winEnvAllOk "C:/launcher.exe" [7, 7]
        ⟨[("C:/launcher.exe", [1, 2, 3])]⟩).2.get "C:/launcher.exe.update.bat" = none ∧
    (performWindowsUpdate winEnvAllOk "C:/launcher.exe" [7, 7]
        ⟨[("C:/launcher.exe", [1, 2, 3])]⟩).2.get "C:/launcher.exe" = some [1, 2, 3] :=
  ⟨rfl, rfl, rfl, rfl⟩

/-- The raw branch of extractBinaryFromArchive: a URL with neither
archive suffix passes the stream through unchanged. -/
theorem extract_raw_branch
    (tarDecode zipDecode : List Nat → Except String (List ArchiveEntry))
    (os arch : String) (stream : List Nat) (url : String)
    (h1 : strEndsWith url ".tar.gz" = false) (h2 : strEndsWith url ".zip" = false) :
    extractBinaryFromArchive tarDecode zipDecode os arch stream url = .ok stream := by
  simp [extractBinaryFromArchive, h1, h2]

/-- C9: for every stream and every URL ending in neither ".tar.gz" nor
".zip", extractBinaryFromArchive returns the stream unmodified with no
error. -/
theorem C9_non_archive_url_is_identity
    (tarDecode zipDecode : List Nat → Except String (List ArchiveEntry))
    (os arch : String) (stream : List Nat) (url : String)
    (h1 : strEndsWith url ".tar.gz" = false) (h2 : strEndsWith url ".zip" = false) :
    extractBinaryFromArchive tarDecode zipDecode os arch stream url = .ok stream :=
  extract_raw_branch tarDecode zipDecode os arch stream url h1 h2

/-- A decoder that is never consulted in the runs at hand. -/
def decodeUnused : List Nat → Except String (List ArchiveEntry) :=
  fun _ => .error "unused"

/-- C9 witness: instantiation at a raw binary URL. -/
theorem C9_witness :
    extractBinaryFromArchive decodeUnused decodeUnused "linux" "amd64"
      [1, 2, 3] "https://example.com/ddalab-launcher-raw" = .ok [1, 2, 3] :=
  C9_non_archive_url_is_identity decodeUnused decodeUnused "linux" "amd64"
    [1, 2, 3] "https://example.com/ddalab-launcher-raw" (by decide) (by decide)

/-- C10: with an empty download URL, PerformUpdate rejects immediately:
the error is returned with an empty effect trace (no executable query,
no HTTP request, no install strategy) and the filesystem untouched. -/
theorem C10_empty_url_rejected_without_effects (env : UpdEnv) :
    PerformUpdate env "" = ⟨.error .noDownloadURL, [], env.fs⟩ := rfl

/-- Entries that are directories or fail the match test are passed
over by the tar scanning loop. -/
theorem tarScan_skip (os arch : String) (pre : List ArchiveEntry)
    (h : ∀ x ∈ pre, x.isDir = true ∨ tarMatches os arch x.name = false)
    (l : List ArchiveEntry) : tarScan os arch (pre ++ l) = tarScan os arch l := by
  induction pre with
  | nil => rfl
  | cons x xs ih =>
    have hrest : ∀ y ∈ xs, y.isDir = true ∨ tarMatches os arch y.name = false :=
      fun y hy => h y (by simp [hy])
    rcases h x (by simp) with hd | hm
    · simp [tarScan, hd, ih hrest]
    · by_cases hdx : x.isDir = true
      · simp [tarScan, hdx, ih hrest]
      · simp only [Bool.not_eq_true] at hdx
        simp [tarScan, hdx, hm, ih hrest]

/-- C8: tar entries are examined in archive order: with no matching
regular file before it, the first matching regular-file entry's base
name and full contents are what the scan returns, the entries after it
are never examined (the result is the same for every continuation of
the archive), and extraction returns exactly those contents when they
meet the minimum size. -/
theorem C8_first_match_stops_scan (os arch : String)
    (pre : List ArchiveEntry) (e : ArchiveEntry) (rest : List ArchiveEntry)
    (hpre : ∀ x ∈ pre, x.isDir = true ∨ tarMatches os arch x.name = false)
    (hd : e.isDir = false) (hm : tarMatches os arch e.name = true) :
    tarScan os arch (pre ++ e :: rest) = some (goBase e.name, e.content) ∧
    (∀ rest2, tarScan os arch (pre ++ e :: rest2) = some (goBase e.name, e.content)) ∧
    (1024 ≤ e.content.length →
      extractFromTarGz os arch (pre ++ e :: rest) = .ok e.content) := by
  have hstop : ∀ r, tarScan os arch (pre ++ e :: r) = some (goBase e.name, e.content) := by
    intro r
    rw [tarScan_skip os arch pre hpre]
    simp [tarScan, hd, hm]
  refine ⟨hstop rest, hstop, ?_⟩
  intro hlen
  have h0 : ¬(e.content.length = 0) := by omega
  have h1 : ¬(e.content.length < 1024) := by omega
  simp [extractFromTarGz, hstop rest, h0, h1]

/-- The directory and non-matching entries preceding the match in the
C8 witness archive. -/
def preW : List ArchiveEntry := [⟨"pkg/", true, []⟩, ⟨"pkg/README.md", false, [1]⟩]

/-- The first matching entry of the C8 witness archive. -/
def eW : ArchiveEntry := ⟨"pkg/ddalab-launcher-linux-amd64", false, List.replicate 1024 7⟩

/-- A later entry of the C8 witness archive that would also match. -/
def restW : List ArchiveEntry := [⟨"pkg/launcher-linux-amd64", false, [9]⟩]

/-- C8 witness: a concrete archive with a directory, a non-matching
file, a matching file and a second matching file after it. -/
theorem C8_witness :
    tarScan "linux" "amd64" (preW ++ eW :: restW) = some (goBase eW.name, eW.content) ∧
    tarScan "linux" "amd64" (preW ++ eW :: []) = some (goBase eW.name, eW.content) ∧
    extractFromTarGz "linux" "amd64" (preW ++ eW :: restW) = .ok eW.content :=
  ⟨(C8_first_match_stops_scan "linux" "amd64" preW eW restW (by decide) rfl (by decide)).1,
   (C8_first_match_stops_scan "linux" "amd64" preW eW restW (by decide) rfl (by decide)).2.1 [],
   (C8_first_match_stops_scan "linux" "amd64" preW eW restW (by decide) rfl (by decide)).2.2
     (by
       have h : eW.content.length = 1024 := by
         rw [show eW.content = List.replicate 1024 7 from rfl, List.length_replicate]
       omega)⟩

/-- C1: in both install strategies, when an I/O step before the point
of no return fails — on POSIX temp-file creation, writing the payload,
chmod, or the backup rename; on Windows writing the .new file or
writing the batch script — the strategy returns an error and the file
at the current-executable path still holds its original bytes. -/
theorem C1_pre_failure_preserves_executable :
    (∀ (env : UnixEnv) (ce tp : String) (body : List Nat) (fs : FS) (orig : List Nat),
      fs.get ce = some orig → tp ≠ ce →
      (env.createTempFails = true ∨ env.applyFails = true ∨
        env.chmodFails = true ∨ env.backupRenameFails = true) →
      ∃ e, (performUnixUpdate env ce tp body fs).1 = .error e ∧
        (performUnixUpdate env ce tp body fs).2.get ce = some orig) ∧
    (∀ (env : WinEnv) (ce : String) (body : List Nat) (fs : FS) (orig : List Nat),
      fs.get ce = some orig →
      (env.applyFails = true ∨ env.writeBatchFails = true) →
      ∃ e, (performWindowsUpdate env ce body fs).1 = .error e ∧
        (performWindowsUpdate env ce body fs).2.get ce = some orig) := by
  constructor
  · intro env ce tp body fs orig hget htp hfail
    by_cases h1 : env.createTempFails
    · exact ⟨.createTempFailed, by simp [performUnixUpdate, h1],
        by simp [performUnixUpdate, h1, hget]⟩
    · by_cases h2 : env.applyFails
      · refine ⟨.applyFailed, by simp [performUnixUpdate, h1, h2], ?_⟩
        simp [performUnixUpdate, h1, h2, removeTemp_get_ne env tp ce _ htp,
          FS.get_set, htp, hget]
      · by_cases h3 : env.chmodFails
        · refine ⟨.chmodFailed, by simp [performUnixUpdate, h1, h2, h3], ?_⟩
          simp [performUnixUpdate, h1, h2, h3, removeTemp_get_ne env tp ce _ htp,
            FS.get_set, htp, hget]
        · by_cases h4 : env.backupRenameFails
          · refine ⟨.backupRenameFailed, ?_, ?_⟩ <;>
              simp [performUnixUpdate, h1, h2, h3, h4, FS.get_set, htp, hget,
                removeTemp_get_ne env tp ce _ htp]
          · rcases hfail with h | h | h | h <;> simp_all
  · intro env ce body fs orig hget hfail
    have hn : ce ++ ".new" ≠ ce := String.append_ne_self ce ".new" (by decide)
    have hb : ce ++ ".update.bat" ≠ ce := String.append_ne_self ce ".update.bat" (by decide)
    by_cases h1 : env.applyFails
    · refine ⟨.applyFailed, by simp [performWindowsUpdate, h1], ?_⟩
      simp [performWindowsUpdate, h1, winCleanup_get_ne env _ _ ce _ hn hb, hget]
    · by_cases h2 : env.writeBatchFails
      · refine ⟨.writeBatchFailed, by simp [performWindowsUpdate, h1, h2], ?_⟩
        simp [performWindowsUpdate, h1, h2, winCleanup_get_ne env _ _ ce _ hn hb,
          FS.get_set, hn, hget]
      · rcases hfail with h | h <;> simp_all

/-- A UnixEnv in which only the payload write fails. -/
def unixEnvApplyFail : UnixEnv := ⟨false, true, false, false, false, false, false, false⟩

/-- A WinEnv in which only the payload write fails. -/
def winEnvApplyFail : WinEnv := ⟨true, false, false, false, false⟩

/-- C1 witness: a concrete failing write on each platform. -/
theorem C1_witness :
    (∃ e, (performUnixUpdate unixEnvApplyFail "/opt/launcher" "/opt/tmp1" [7, 7]
        ⟨[("/opt/launcher", [1, 2, 3])]⟩).1 = .error e ∧
      (performUnixUpdate unixEnvApplyFail "/opt/launcher" "/opt/tmp1" [7, 7]
        ⟨[("/opt/launcher", [1, 2, 3])]⟩).2.get "/opt/launcher" = some [1, 2, 3]) ∧
    (∃ e, (performWindowsUpdate winEnvApplyFail "C:/launcher.exe" [7, 7]
        ⟨[("C:/launcher.exe", [1, 2, 3])]⟩).1 = .error e ∧
      (performWindowsUpdate winEnvApplyFail "C:/launcher.exe" [7, 7]
        ⟨[("C:/launcher.exe", [1, 2, 3])]⟩).2.get "C:/launcher.exe" = some [1, 2, 3]) :=
  ⟨C1_pre_failure_preserves_executable.1 unixEnvApplyFail "/opt/launcher" "/opt/tmp1"
      [7, 7] ⟨[("/opt/launcher", [1, 2, 3])]⟩ [1, 2, 3] rfl (by decide) (Or.inr (Or.inl rfl)),
   C1_pre_failure_preserves_executable.2 winEnvApplyFail "C:/launcher.exe"
      [7, 7] ⟨[("C:/launcher.exe", [1, 2, 3])]⟩ [1, 2, 3] rfl (Or.inl rfl)⟩

/-- C3 amended: when the final POSIX rename fails, the rollback rename
of the .backup file is attempted and the rename error is returned; a
successful rollback restores the original bytes at the target path with
no .backup file remaining; a failing rollback is ignored — the same
original rename error is surfaced (the executable is then missing and
the .backup file still holds the original bytes). -/
theorem C3_final_rename_failure_rolls_back
    (env : UnixEnv) (ce tp : String) (body : List Nat) (fs : FS) (orig : List Nat)
    (hget : fs.get ce = some orig)
    (htp : tp ≠ ce) (htpb : tp ≠ ce ++ ".backup")
    (h1 : env.createTempFails = false) (h2 : env.applyFails = false)
    (h3 : env.chmodFails = false) (h4 : env.backupRenameFails = false)
    (h5 : env.finalRenameFails = true) (h6 : env.removeTempFails = false) :
    (performUnixUpdate env ce tp body fs).1 = .error .finalRenameFailed ∧
    (env.rollbackRenameFails = false →
      (performUnixUpdate env ce tp body fs).2.get ce = some orig ∧
      (performUnixUpdate env ce tp body fs).2.get (ce ++ ".backup") = none) ∧
    (env.rollbackRenameFails = true →
      (performUnixUpdate env ce tp body fs).2.get ce = none ∧
      (performUnixUpdate env ce tp body fs).2.get (ce ++ ".backup") = some orig) := by
  have hbp : ce ++ ".backup" ≠ ce := String.append_ne_self ce ".backup" (by decide)
  have hfs2 : ((fs.set tp []).set tp body).get ce = some orig := by
    simp [FS.get_set, htp, hget]
  refine ⟨?_, ?_, ?_⟩
  · simp [performUnixUpdate, h1, h2, h3, h4, h5, h6, hfs2]
  · intro hro
    constructor <;>
      simp [performUnixUpdate, h1, h2, h3, h4, h5, h6, hfs2, rollbackBackup, hro,
        removeTemp, FS.get_set, FS.get_erase, htp, htpb, hbp, hbp.symm]
  · intro hro
    constructor <;>
      simp [performUnixUpdate, h1, h2, h3, h4, h5, h6, hfs2, rollbackBackup, hro,
        removeTemp, FS.get_set, FS.get_erase, htp, htpb, hbp, hbp.symm]

/-- A UnixEnv in which only the final rename fails. -/
def unixEnvRenameFail : UnixEnv := ⟨false, false, false, false, true, false, false, false⟩

/-- A UnixEnv in which the final rename and the rollback rename fail. -/
def unixEnvRenameRollbackFail : UnixEnv :=
  ⟨false, false, false, false, true, true, false, false⟩

/-- The starting filesystem of the C3 runs. -/
def fsC3 : FS := ⟨[("/opt/launcher", [1, 2, 3])]⟩

/-- C3 counterexample: when the rollback rename itself fails, the
returned error is exactly the error returned when the rollback
succeeds — the rollback failure is discarded, and no compounded, more
severe error is reported, although the executable is then missing. -/
theorem C3_counterexample_rollback_error_not_compounded :
    (performUnixUpdate unixEnvRenameRollbackFail "/opt/launcher" "/opt/tmp1" [7, 7] fsC3).1 =
      (performUnixUpdate unixEnvRenameFail "/opt/launcher" "/opt/tmp1" [7, 7] fsC3).1 ∧
    (performUnixUpdate unixEnvRenameRollbackFail "/opt/launcher" "/opt/tmp1" [7, 7] fsC3).1 =
      .error .finalRenameFailed ∧
    (performUnixUpdate unixEnvRenameRollbackFail "/opt/launcher" "/opt/tmp1" [7, 7]
        fsC3).2.get "/opt/launcher" = none :=
  ⟨rfl, rfl, rfl⟩

/-- C3 witness: the amended theorem at a concrete run, both with the
rollback succeeding and with it failing. -/
theorem C3_witness :
    ((performUnixUpdate unixEnvRenameFail "/opt/launcher" "/opt/tmp1" [7, 7] fsC3).1 =
      .error .finalRenameFailed ∧
     (performUnixUpdate unixEnvRenameFail "/opt/launcher" "/opt/tmp1" [7, 7]
        fsC3).2.get "/opt/launcher" = some [1, 2, 3] ∧
     (performUnixUpdate unixEnvRenameFail "/opt/launcher" "/opt/tmp1" [7, 7]
        fsC3).2.get ("/opt/launcher" ++ ".backup") = none) ∧
    ((performUnixUpdate unixEnvRenameRollbackFail "/opt/launcher" "/opt/tmp1" [7, 7]
        fsC3).2.get "/opt/launcher" = none ∧
     (performUnixUpdate unixEnvRenameRollbackFail "/opt/launcher" "/opt/tmp1" [7, 7]
        fsC3).2.get ("/opt/launcher" ++ ".backup") = some [1, 2, 3]) :=
  ⟨⟨(C3_final_rename_failure_rolls_back unixEnvRenameFail "/opt/launcher" "/opt/tmp1"
      [7, 7] fsC3 [1, 2, 3] rfl (by decide) (by decide) rfl rfl rfl rfl rfl rfl).1,
    ((C3_final_rename_failure_rolls_back unixEnvRenameFail "/opt/launcher" "/opt/tmp1"
      [7, 7] fsC3 [1, 2, 3] rfl (by decide) (by decide) rfl rfl rfl rfl rfl rfl).2.1 rfl).1,
    ((C3_final_rename_failure_rolls_back unixEnvRenameFail "/opt/launcher" "/opt/tmp1"
      [7, 7] fsC3 [1, 2, 3] rfl (by decide) (by decide) rfl rfl rfl rfl rfl rfl).2.1 rfl).2⟩,
   ((C3_final_rename_failure_rolls_back unixEnvRenameRollbackFail "/opt/launcher" "/opt/tmp1"
      [7, 7] fsC3 [1, 2, 3] rfl (by decide) (by decide) rfl rfl rfl rfl rfl rfl).2.2 rfl)⟩

/-- C2 amended: whenever either archive branch selects a matching entry
whose content is smaller than 1024 bytes, extraction fails with an
ExtractionError, and an extraction error always stops PerformUpdate
before any install strategy runs; the raw passthrough branch, however,
performs no size check and returns the stream unchanged. -/
theorem C2_minimum_size_on_archive_branches :
    (∀ (os arch : String) (entries : List ArchiveEntry) (n : String) (d : List Nat),
      tarScan os arch entries = some (n, d) → d.length < 1024 →
      ∃ e, extractFromTarGz os arch entries = .error e) ∧
    (∀ (os arch : String) (entries : List ArchiveEntry) (n : String) (d : List Nat),
      zipScan os arch entries = some (n, d) → d.length < 1024 →
      ∃ e, extractFromZip os arch entries = .error e) ∧
    (∀ (tarD zipD : List Nat → Except String (List ArchiveEntry)) (os arch : String)
      (stream : List Nat) (url : String),
      strEndsWith url ".tar.gz" = false → strEndsWith url ".zip" = false →
      extractBinaryFromArchive tarD zipD os arch stream url = .ok stream) ∧
    (∀ (env : UpdEnv) (url : String) (e : ExtractionError),
      extractBinaryFromArchive env.tarDecode env.zipDecode env.goos env.goarch
        env.body url = .error e →
      ∀ s, Effect.runInstallStrategy s ∉ (PerformUpdate env url).trace) := by
  refine ⟨?_, ?_, ?_, ?_⟩
  · intro os arch entries n d hscan hlen
    by_cases h0 : d.length = 0
    · exact ⟨.noBinaryFound (os ++ "-" ++ arch) (tarPatterns os arch),
        by simp [extractFromTarGz, hscan, h0]⟩
    · exact ⟨.binaryTooSmall n d.length,
        by simp [extractFromTarGz, hscan, h0, hlen]⟩
  · intro os arch entries n d hscan hlen
    by_cases h0 : d.length = 0
    · exact ⟨.noBinaryFound (os ++ "-" ++ arch) (zipPatterns os arch),
        by simp [extractFromZip, hscan, h0]⟩
    · exact ⟨.binaryTooSmall n d.length,
        by simp [extractFromZip, hscan, h0, hlen]⟩
  · exact extract_raw_branch
  · intro env url e he s
    by_cases hurl : url = ""
    · simp [PerformUpdate, hurl]
    · cases hex : env.execPath with
      | none => simp [PerformUpdate, hurl, hex]
      | some exe0 =>
        cases hres : env.resolvedPath with
        | none => simp [PerformUpdate, hurl, hex, hres]
        | some ce =>
          cases hst : env.httpStatus with
          | none => simp [PerformUpdate, hurl, hex, hres, hst]
          | some status =>
            by_cases hs2 : status = 200
            · simp [PerformUpdate, hurl, hex, hres, hst, hs2, he]
            · simp [PerformUpdate, hurl, hex, hres, hst, hs2]

/-- The raw-binary download URL of the C2 counterexample. -/
def rawURL : String := "https://example.com/ddalab-launcher-raw"

/-- A UnixEnv in which every syscall succeeds. -/
def unixEnvAllOk : UnixEnv := ⟨false, false, false, false, false, false, false, false⟩

/-- A world whose download is a 3-byte raw payload and whose I/O all
succeeds. -/
def envTiny : UpdEnv :=
  ⟨"linux", "amd64", some "/opt/launcher", some "/opt/launcher", some 200, [1, 2, 3],
    decodeUnused, decodeUnused, winEnvAllOk, unixEnvAllOk, "/opt/tmp1",
    ⟨[("/opt/launcher", [9, 9])]⟩⟩

/-- C2 counterexample: a 3-byte payload under a non-archive URL passes
extraction with no error and PerformUpdate runs the install strategy to
success — the minimum-size invariant does not hold on the raw
passthrough branch. -/
theorem C2_counterexample_raw_small_payload_reaches_install :
    ([1, 2, 3] : List Nat).length < 1024 ∧
    extractBinaryFromArchive decodeUnused decodeUnused "linux" "amd64"
      [1, 2, 3] rawURL = .ok [1, 2, 3] ∧
    Effect.runInstallStrategy "unix" ∈ (PerformUpdate envTiny rawURL).trace ∧
    (PerformUpdate envTiny rawURL).result = .ok () := by
  refine ⟨by decide, rfl, ?_, rfl⟩
  decide

/-- The undersized tar archive of the C2 witness. -/
def entriesSmallTar : List ArchiveEntry := [⟨"ddalab-launcher-linux-amd64", false, [1, 2, 3]⟩]

/-- The undersized zip archive of the C2 witness. -/
def entriesSmallZip : List ArchiveEntry :=
  [⟨"ddalab-launcher-windows-amd64.exe", false, [1, 2, 3]⟩]

/-- C2 witness: concrete undersized archives are rejected, a concrete
raw stream passes through, and a concrete failing extraction never
reaches an install strategy. -/
theorem C2_witness :
    (∃ e, extractFromTarGz "linux" "amd64" entriesSmallTar = .error e) ∧
    (∃ e, extractFromZip "windows" "amd64" entriesSmallZip = .error e) ∧
    extractBinaryFromArchive decodeUnused decodeUnused "linux" "amd64"
      [4, 5] "https://example.com/raw-bin" = .ok [4, 5] ∧
    Effect.runInstallStrategy "unix" ∉
      (PerformUpdate envTiny "https://example.com/app.tar.gz").trace :=
  ⟨C2_minimum_size_on_archive_branches.1 "linux" "amd64" entriesSmallTar
      "ddalab-launcher-linux-amd64" [1, 2, 3] rfl (by decide),
   C2_minimum_size_on_archive_branches.2.1 "windows" "amd64" entriesSmallZip
      "ddalab-launcher-windows-amd64.exe" [1, 2, 3] rfl (by decide),
   C2_minimum_size_on_archive_branches.2.2.1 decodeUnused decodeUnused "linux" "amd64"
      [4, 5] "https://example.com/raw-bin" (by decide) (by decide),
   C2_minimum_size_on_archive_branches.2.2.2 envTiny "https://example.com/app.tar.gz"
      (.archiveUnreadable "unused") rfl "unix"⟩

end Launcher
